import Mathlib

/-!
Verification development for the `introspect` schema-to-declarations
generator (`src/index.ts`).  The pipeline fetches base-table names and
column descriptors from the database catalog, maps each column's
PostgreSQL type to a TypeScript type node, groups columns by table,
builds one exported interface per table plus an aggregate `Database`
interface, and renders the declarations to text behind a generated-file
header.  The definitions below are a shallow embedding of that code.
-/

namespace Introspect

/-- A row of the column-listing query (`information_schema.columns`):
table name, column name, declared data type, underlying storage (UDT)
type, and the nullability flag as the catalog reports it. -/
structure Column where
  table_name : String
  column_name : String
  data_type : String
  udt_name : String
  is_nullable : String
deriving Repr, DecidableEq

/-- TypeScript type nodes, as produced through `ts.factory` in
`getTypeNode` and the declaration builders. -/
inductive TypeNode where
  | stringKeyword
  | numberKeyword
  | booleanKeyword
  | unknownKeyword
  | nullLiteral
  | union (members : List TypeNode)
  | ref (name : String)
deriving Repr

mutual

/-- Boolean equality on type nodes. -/
def TypeNode.beq : TypeNode → TypeNode → Bool
  | TypeNode.stringKeyword, TypeNode.stringKeyword => true
  | TypeNode.numberKeyword, TypeNode.numberKeyword => true
  | TypeNode.booleanKeyword, TypeNode.booleanKeyword => true
  | TypeNode.unknownKeyword, TypeNode.unknownKeyword => true
  | TypeNode.nullLiteral, TypeNode.nullLiteral => true
  | TypeNode.union ms, TypeNode.union ns => TypeNode.beqList ms ns
  | TypeNode.ref a, TypeNode.ref b => a == b
  | _, _ => false

/-- Boolean equality on lists of type nodes. -/
def TypeNode.beqList : List TypeNode → List TypeNode → Bool
  | [], [] => true
  | a :: as, b :: bs => TypeNode.beq a b && TypeNode.beqList as bs
  | _, _ => false

end

instance : BEq TypeNode := ⟨TypeNode.beq⟩

mutual

theorem TypeNode.eq_of_beq : ∀ {a b : TypeNode}, TypeNode.beq a b = true → a = b
  | TypeNode.stringKeyword, TypeNode.stringKeyword, _ => rfl
  | TypeNode.numberKeyword, TypeNode.numberKeyword, _ => rfl
  | TypeNode.booleanKeyword, TypeNode.booleanKeyword, _ => rfl
  | TypeNode.unknownKeyword, TypeNode.unknownKeyword, _ => rfl
  | TypeNode.nullLiteral, TypeNode.nullLiteral, _ => rfl
  | TypeNode.union ms, TypeNode.union ns, h => by
      have h' : TypeNode.beqList ms ns = true := by simpa [TypeNode.beq] using h
      exact congrArg TypeNode.union (TypeNode.eqList_of_beqList h')
  | TypeNode.ref a, TypeNode.ref b, h => by
      have h' : (a == b) = true := by simpa [TypeNode.beq] using h
      exact congrArg TypeNode.ref (beq_iff_eq.mp h')

theorem TypeNode.eqList_of_beqList :
    ∀ {as bs : List TypeNode}, TypeNode.beqList as bs = true → as = bs
  | [], [], _ => rfl
  | a :: as, b :: bs, h => by
      have h' : TypeNode.beq a b = true ∧ TypeNode.beqList as bs = true := by
        simpa [TypeNode.beqList, Bool.and_eq_true] using h
      rw [TypeNode.eq_of_beq h'.1, TypeNode.eqList_of_beqList h'.2]

end

mutual

theorem TypeNode.beq_refl : ∀ a : TypeNode, TypeNode.beq a a = true
  | TypeNode.stringKeyword => rfl
  | TypeNode.numberKeyword => rfl
  | TypeNode.booleanKeyword => rfl
  | TypeNode.unknownKeyword => rfl
  | TypeNode.nullLiteral => rfl
  | TypeNode.union ms => by
      simpa [TypeNode.beq] using TypeNode.beqList_refl ms
  | TypeNode.ref a => by simp [TypeNode.beq]

theorem TypeNode.beqList_refl : ∀ as : List TypeNode, TypeNode.beqList as as = true
  | [] => rfl
  | a :: as => by
      simp [TypeNode.beqList, TypeNode.beq_refl a, TypeNode.beqList_refl as]

end

instance : LawfulBEq TypeNode where
  eq_of_beq := TypeNode.eq_of_beq
  rfl := TypeNode.beq_refl _

instance : DecidableEq TypeNode :=
  fun a b =>
    decidable_of_iff (TypeNode.beq a b = true)
      ⟨TypeNode.eq_of_beq, fun h => h ▸ TypeNode.beq_refl a⟩

/-- The diagnostic text of `console.warn` in the default branch of
`getTypeNode`. -/
def unknownTypeWarning (dataType udtName : String) : String :=
  "Unknown type: " ++ dataType ++ " (" ++ udtName ++ ")"

/-- The base-type selection of `getTypeNode` (`src/index.ts` lines
50-104), before the nullability wrapping: UDT names `uuid`,
`timestamptz`, `timestamp` and `citext` are checked first, otherwise the
declared data type is dispatched on.  The second component records the
diagnostic warning emitted by the default branch, `none` elsewhere. -/
def getTypeNodeCore (dataType udtName : String) : TypeNode × Option String :=
  if udtName == "uuid" then
    (TypeNode.stringKeyword, none)
  else if udtName == "timestamptz" || udtName == "timestamp" then
    (TypeNode.stringKeyword, none)
  else if udtName == "citext" then
    (TypeNode.stringKeyword, none)
  else
    match dataType with
    | "character varying" | "text" | "bigint" | "character" =>
        (TypeNode.stringKeyword, none)
    | "integer" | "smallint" | "numeric" | "decimal" | "real"
    | "double precision" =>
        (TypeNode.numberKeyword, none)
    | "boolean" =>
        (TypeNode.booleanKeyword, none)
    | "date" =>
        (TypeNode.stringKeyword, none)
    | "json" | "jsonb" =>
        (TypeNode.unknownKeyword, none)
    | "uuid" =>
        (TypeNode.stringKeyword, none)
    | _ =>
        (TypeNode.unknownKeyword, some (unknownTypeWarning dataType udtName))

/-- `getTypeNode` (`src/index.ts` lines 43-117): the base type from
`getTypeNodeCore`, widened to a union with `null` when the column is
nullable. -/
def getTypeNode (dataType udtName : String) (isNullable : Bool) : TypeNode :=
  let baseType := (getTypeNodeCore dataType udtName).1
  if isNullable then
    TypeNode.union [baseType, TypeNode.nullLiteral]
  else
    baseType

/-- Whether a type node is a union that lists the `null` literal among
its members. -/
def isUnionWithNull : TypeNode → Bool
  | TypeNode.union members => members.contains TypeNode.nullLiteral
  | _ => false

/-- Splitting a character list on a separator character, the way the
JavaScript `String.prototype.split` with a one-character separator does:
`"a__b"` gives `["a", "", "b"]` and the empty string gives `[""]`. -/
def splitOnChar (sep : Char) : List Char → List (List Char)
  | [] => [[]]
  | c :: cs =>
      match splitOnChar sep cs with
      | [] => [[]]
      | word :: words =>
          if c = sep then [] :: word :: words else (c :: word) :: words

/-- `toPascalCase` (`src/index.ts` lines 120-125): split on `_`,
uppercase the first character of each word (`charAt(0).toUpperCase()` on
the empty word yields the empty word), keep the remainder
(`word.slice(1)`), and join the words with no separator. -/
def toPascalCase (str : String) : String :=
  String.join ((splitOnChar '_' str.data).map (fun word =>
    match word with
    | [] => ""
    | c :: rest => String.mk (Char.toUpper c :: rest)))

/-- A rendering of the spec's wording for the naming rule: split the
name on underscore, uppercase the first character of each segment, keep
the rest of the segment unchanged, and concatenate the segments. -/
def specPascalCase (name : String) : String :=
  (splitOnChar '_' name.data).foldl
    (fun acc seg =>
      acc ++ (match seg with
              | [] => ""
              | c :: cs => String.mk (Char.toUpper c :: cs))) ""

/-- One step of the grouping loop (`src/index.ts` lines 128-134): a JS
`Map` keyed by table name whose value array receives each column in
turn.  Keys keep first-insertion order; an existing key has the column
pushed onto its array. -/
def insertColumn : List (String × List Column) → Column → List (String × List Column)
  | [], c => [(c.table_name, [c])]
  | p :: m, c =>
      if p.1 == c.table_name then
        (p.1, p.2 ++ [c]) :: m
      else
        p :: insertColumn m c

/-- `tableColumns` (`src/index.ts` lines 128-134): the columns grouped
by table name, in insertion order. -/
def tableColumns (columns : List Column) : List (String × List Column) :=
  columns.foldl insertColumn []

/-- `tableColumns.get(tableName) || []`: the grouped columns of a table,
or the empty list when the table has no entry. -/
def lookupCols : List (String × List Column) → String → List Column
  | [], _ => []
  | p :: m, t => if p.1 == t then p.2 else lookupCols m t

/-- A property signature of a generated interface: field name and type
node. -/
structure PropertySig where
  name : String
  type : TypeNode
deriving Repr, DecidableEq

/-- An interface declaration as built through
`ts.factory.createInterfaceDeclaration`: its identifier, whether the
`export` modifier is attached, and its ordered property signatures. -/
structure InterfaceDecl where
  name : String
  exported : Bool
  props : List PropertySig
deriving Repr, DecidableEq

/-- The property signature built for one column (`src/index.ts` lines
143-150): the column name with the type node for its data type, UDT name
and `is_nullable === "YES"`. -/
def columnProperty (col : Column) : PropertySig :=
  { name := col.column_name
    type := getTypeNode col.data_type col.udt_name (col.is_nullable == "YES") }

/-- `interfaceDeclarations` (`src/index.ts` lines 139-161): one exported
interface per fetched table, named by `toPascalCase`, with one property
per grouped column. -/
def interfaceDeclarations (tables : List String) (columns : List Column) :
    List InterfaceDecl :=
  tables.map (fun tableName =>
    { name := toPascalCase tableName
      exported := true
      props := (lookupCols (tableColumns columns) tableName).map columnProperty })

/-- `databaseInterface` (`src/index.ts` lines 163-179): the exported
`Database` interface keyed by each table's original name, referencing
the PascalCased per-table interface. -/
def databaseInterface (tables : List String) : InterfaceDecl :=
  { name := "Database"
    exported := true
    props := tables.map (fun t =>
      { name := t, type := TypeNode.ref (toPascalCase t) }) }

/-- `allDeclarations` (`src/index.ts` line 182): the per-table
interfaces followed by the single `Database` interface. -/
def allDeclarations (tables : List String) (columns : List Column) :
    List InterfaceDecl :=
  interfaceDeclarations tables columns ++ [databaseInterface tables]

/-- The generated-file header prepended to the printed declarations
(`src/index.ts` lines 199-202). -/
def headerComment (timestamp : String) : String :=
  "// Generated by introspect on " ++ timestamp ++
    "\n// DO NOT EDIT - This file is auto-generated\n\n"

/-- `unformattedOutput` (`src/index.ts` lines 196-202), parametric in
the TypeScript printer (an external deterministic serializer): the
header with the run's timestamp followed by the printed declarations. -/
def unformattedOutput (printFile : List InterfaceDecl → String)
    (tables : List String) (columns : List Column) (timestamp : String) : String :=
  headerComment timestamp ++ printFile (allDeclarations tables columns)

/-- The warnings the run prints, one per column whose type pair falls to
the default branch of `getTypeNode`. -/
def columnWarnings (columns : List Column) : List String :=
  columns.filterMap (fun c => (getTypeNodeCore c.data_type c.udt_name).2)

/-- The catalog rows of the spec's example scenario: table
`user_accounts` with columns `id` (uuid, not null), `email` (citext, not
null), `bio` (text, nullable) and `created_at` (timestamptz, not
null). -/
def userAccountsColumns : List Column :=
  [ { table_name := "user_accounts", column_name := "id",
      data_type := "uuid", udt_name := "uuid", is_nullable := "NO" },
    { table_name := "user_accounts", column_name := "email",
      data_type := "USER-DEFINED", udt_name := "citext", is_nullable := "NO" },
    { table_name := "user_accounts", column_name := "bio",
      data_type := "text", udt_name := "text", is_nullable := "YES" },
    { table_name := "user_accounts", column_name := "created_at",
      data_type := "timestamp with time zone", udt_name := "timestamptz",
      is_nullable := "NO" } ]

/-- A column whose declared and storage types are both `point`, a pair
no mapping rule recognizes. -/
def pointColumn : Column :=
  { table_name := "locations", column_name := "location",
    data_type := "point", udt_name := "point", is_nullable := "NO" }

/-- A column of a view: the column query returns it (it filters only on
schema), but its table name matches no fetched base table. -/
def strayColumn : Column :=
  { table_name := "reporting_view", column_name := "total",
    data_type := "numeric", udt_name := "numeric", is_nullable := "YES" }

/-- A non-nullable text column used as a concrete instance for the
nullability claims. -/
def plainTextColumn : Column :=
  { table_name := "user_accounts", column_name := "bio",
    data_type := "text", udt_name := "text", is_nullable := "NO" }

theorem lookupCols_insertColumn (m : List (String × List Column)) (c : Column)
    (t : String) :
    lookupCols (insertColumn m c) t =
      lookupCols m t ++ (if c.table_name == t then [c] else []) := by
  induction m with
  | nil =>
      by_cases h : c.table_name = t <;> simp [insertColumn, lookupCols, h]
  | cons p m ih =>
      by_cases h1 : p.1 = c.table_name
      · by_cases h2 : p.1 = t
        · have h3 : c.table_name = t := h1 ▸ h2
          simp [insertColumn, lookupCols, h1, h2, h3]
        · have h3 : ¬c.table_name = t := fun he => h2 (h1 ▸ he.symm ▸ rfl)
          simp [insertColumn, lookupCols, h1, h2, h3]
      · by_cases h2 : p.1 = t
        · have h3 : ¬c.table_name = t := fun he => h1 (h2.trans he.symm)
          have h4 : ¬t = c.table_name := fun he => h1 (h2.trans he)
          simp [insertColumn, lookupCols, h1, h2, h3, h4]
        · simp [insertColumn, lookupCols, h1, h2, ih]

theorem lookupCols_foldl_insertColumn (columns : List Column)
    (m : List (String × List Column)) (t : String) :
    lookupCols (columns.foldl insertColumn m) t =
      lookupCols m t ++ columns.filter (fun c => c.table_name == t) := by
  induction columns generalizing m with
  | nil => simp
  | cons c columns ih =>
      rw [List.foldl_cons, ih, lookupCols_insertColumn]
      by_cases h : c.table_name = t <;> simp [List.filter_cons, h]

/-- The grouped columns of a table are exactly the column rows carrying
that table name, in query order. -/
theorem lookupCols_tableColumns (columns : List Column) (t : String) :
    lookupCols (tableColumns columns) t =
      columns.filter (fun c => c.table_name == t) := by
  simpa [tableColumns, lookupCols] using
    lookupCols_foldl_insertColumn columns [] t

/-- The per-table interfaces, characterized without the intermediate
grouping map. -/
theorem interfaceDeclarations_filter (tables : List String)
    (columns : List Column) :
    interfaceDeclarations tables columns =
      tables.map (fun t =>
        { name := toPascalCase t
          exported := true
          props := (columns.filter (fun c => c.table_name == t)).map
            columnProperty }) := by
  simp [interfaceDeclarations, lookupCols_tableColumns]

/-- The base type chosen by `getTypeNodeCore` is never a union, hence
never a union containing null. -/
theorem isUnionWithNull_getTypeNodeCore (dataType udtName : String) :
    isUnionWithNull (getTypeNodeCore dataType udtName).1 = false := by
  unfold getTypeNodeCore
  repeat' split
  all_goals rfl

/-- `getTypeNodeCore` either warns nothing, or falls back to the unknown
keyword together with the diagnostic naming the pair. -/
theorem getTypeNodeCore_warning_spec (dataType udtName : String) :
    (getTypeNodeCore dataType udtName).2 = none ∨
      getTypeNodeCore dataType udtName =
        (TypeNode.unknownKeyword, some (unknownTypeWarning dataType udtName)) := by
  unfold getTypeNodeCore
  repeat' split
  all_goals first
  | exact Or.inl rfl
  | exact Or.inr rfl

/-- Claim C1: for a catalog containing exactly one base table
`user_accounts` with columns `id` (uuid, not null), `email` (citext, not
null), `bio` (text, nullable) and `created_at` (timestamptz, not null)
in ordinal order, the generated declarations are exactly an exported
interface `UserAccounts` with fields `id : string`, `email : string`,
`bio : string | null`, `created_at : string` in that order, followed by
an exported interface `Database` with the single field
`user_accounts : UserAccounts`. -/
theorem claim_C1_example_scenario :
    allDeclarations ["user_accounts"] userAccountsColumns =
      [ { name := "UserAccounts", exported := true,
          props := [ { name := "id", type := TypeNode.stringKeyword },
                     { name := "email", type := TypeNode.stringKeyword },
                     { name := "bio",
                       type := TypeNode.union
                         [TypeNode.stringKeyword, TypeNode.nullLiteral] },
                     { name := "created_at",
                       type := TypeNode.stringKeyword } ] },
        { name := "Database", exported := true,
          props := [ { name := "user_accounts",
                       type := TypeNode.ref "UserAccounts" } ] } ] := by
  decide

/-- Claim C2: for every list of fetched tables, the output has exactly
one generated interface per table, in fetch order and named by the
PascalCase transform, plus exactly one `Database` declaration whose
fields are keyed by each table's original name in the same order, each
referencing that table's PascalCased interface — one field per table, no
more, no fewer. -/
theorem claim_C2_completeness (tables : List String) (columns : List Column) :
    (interfaceDeclarations tables columns).length = tables.length ∧
    (interfaceDeclarations tables columns).map InterfaceDecl.name =
      tables.map toPascalCase ∧
    allDeclarations tables columns =
      interfaceDeclarations tables columns ++ [databaseInterface tables] ∧
    (databaseInterface tables).props =
      tables.map (fun t =>
        { name := t, type := TypeNode.ref (toPascalCase t) }) := by
  refine ⟨?_, ?_, rfl, rfl⟩ <;> simp [interfaceDeclarations]

/-- Claim C3: for every `(declaredType, storageType)` pair, the mapper
with `nullable = false` yields a node that is not a union containing a
null member, and with `nullable = true` yields a union whose members are
exactly the non-nullable node and the null marker. -/
theorem claim_C3_nullability_wrapping (dataType udtName : String) :
    getTypeNode dataType udtName true =
      TypeNode.union
        [getTypeNode dataType udtName false, TypeNode.nullLiteral] ∧
    isUnionWithNull (getTypeNode dataType udtName false) = false :=
  ⟨rfl, isUnionWithNull_getTypeNodeCore dataType udtName⟩

/-- Claim C4: for every `(declaredType, storageType, nullable)` triple
the mapper returns some node and raises no exception; an unrecognized
pair falls back to the unknown node with a diagnostic naming the pair,
and the field is still emitted — e.g. a `point`/`point` column yields an
unknown-typed field in its interface. -/
theorem claim_C4_total_mapping_with_fallback (dataType udtName : String)
    (isNullable : Bool) :
    (∃ node, getTypeNode dataType udtName isNullable = node) ∧
    ((getTypeNodeCore dataType udtName).2 = none ∨
      getTypeNodeCore dataType udtName =
        (TypeNode.unknownKeyword,
          some (unknownTypeWarning dataType udtName))) ∧
    getTypeNode "point" "point" false = TypeNode.unknownKeyword ∧
    columnWarnings [pointColumn] = ["Unknown type: point (point)"] ∧
    interfaceDeclarations ["locations"] [pointColumn] =
      [ { name := "Locations", exported := true,
          props := [ { name := "location",
                       type := TypeNode.unknownKeyword } ] } ] :=
  ⟨⟨getTypeNode dataType udtName isNullable, rfl⟩,
   getTypeNodeCore_warning_spec dataType udtName,
   by decide, by decide, by decide⟩

/-- Claim C5: whenever the storage type is one of `uuid`,
`timestamptz`, `timestamp` or `citext`, the mapper produces the
string-type node as the base type for every declared type and every
nullability flag — the declared-type dispatch is never consulted. -/
theorem claim_C5_storage_type_priority (dataType udtName : String)
    (isNullable : Bool)
    (h : udtName = "uuid" ∨ udtName = "timestamptz" ∨
      udtName = "timestamp" ∨ udtName = "citext") :
    (getTypeNodeCore dataType udtName).1 = TypeNode.stringKeyword ∧
    getTypeNode dataType udtName isNullable =
      (if isNullable then
        TypeNode.union [TypeNode.stringKeyword, TypeNode.nullLiteral]
      else TypeNode.stringKeyword) := by
  rcases h with h | h | h | h <;> subst h <;>
    exact ⟨rfl, by cases isNullable <;> rfl⟩

/-- Concrete instance of claim C5 at a declared type whose own dispatch
would give a number node: the `citext` storage type still wins. -/
theorem claim_C5_storage_type_priority_witness :
    (getTypeNodeCore "integer" "citext").1 = TypeNode.stringKeyword ∧
    getTypeNode "integer" "citext" false =
      (if false then
        TypeNode.union [TypeNode.stringKeyword, TypeNode.nullLiteral]
      else TypeNode.stringKeyword) :=
  claim_C5_storage_type_priority "integer" "citext" false
    (Or.inr (Or.inr (Or.inr rfl)))

/-- Claim C6: the grouped column list of every table is exactly the
column rows carrying that table's name in query order, and every
generated interface lists exactly those columns as fields in that same
order. -/
theorem claim_C6_column_order_preserved (tables : List String)
    (columns : List Column) :
    (∀ t, lookupCols (tableColumns columns) t =
      columns.filter (fun c => c.table_name == t)) ∧
    interfaceDeclarations tables columns =
      tables.map (fun t =>
        { name := toPascalCase t
          exported := true
          props := (columns.filter (fun c => c.table_name == t)).map
            columnProperty }) :=
  ⟨fun t => lookupCols_tableColumns columns t,
   interfaceDeclarations_filter tables columns⟩

/-- Claim C7: the generated interface name is the PascalCase transform
of the table name — split on underscore, uppercase each segment's first
character, keep the rest unchanged, concatenate — so `user_accounts`
maps to `UserAccounts`; distinct table names that collide after the
transform are both emitted, with no collision detection. -/
theorem claim_C7_pascal_case_naming :
    (∀ s, toPascalCase s = specPascalCase s) ∧
    toPascalCase "user_accounts" = "UserAccounts" ∧
    (interfaceDeclarations ["foo_bar", "foo__bar"] []).map
        InterfaceDecl.name = ["FooBar", "FooBar"] := by
  refine ⟨fun s => ?_, by decide, by decide⟩
  simp [toPascalCase, specPascalCase, String.join, List.foldl_map]

/-- Claim C8: for a fixed catalog snapshot the output differs between
two runs only in the header timestamp: both runs' outputs are the
timestamp header followed by one and the same body, a deterministic
function of the catalog (and of the deterministic printer), with no
other dependence. -/
theorem claim_C8_determinism_modulo_timestamp
    (printFile : List InterfaceDecl → String) (tables : List String)
    (columns : List Column) (ts1 ts2 : String) :
    ∃ body,
      unformattedOutput printFile tables columns ts1 =
        "// Generated by introspect on " ++ ts1 ++
          "\n// DO NOT EDIT - This file is auto-generated\n\n" ++ body ∧
      unformattedOutput printFile tables columns ts2 =
        "// Generated by introspect on " ++ ts2 ++
          "\n// DO NOT EDIT - This file is auto-generated\n\n" ++ body :=
  ⟨printFile (allDeclarations tables columns), rfl, rfl⟩

/-- Claim C9: a column row whose table name matches no fetched base
table — such as a view column, which the schema-filtered column query
also returns — has no effect on the generated declarations. -/
theorem claim_C9_view_columns_ignored (tables : List String)
    (cols1 cols2 : List Column) (c : Column) (h : c.table_name ∉ tables) :
    allDeclarations tables (cols1 ++ c :: cols2) =
      allDeclarations tables (cols1 ++ cols2) := by
  unfold allDeclarations
  rw [interfaceDeclarations_filter, interfaceDeclarations_filter]
  refine congrArg (· ++ [databaseInterface tables]) ?_
  refine List.map_congr_left ?_
  intro t ht
  have hne : (c.table_name == t) = false := by
    rw [beq_eq_false_iff_ne]
    intro he
    exact h (by rw [he]; exact ht)
  simp [List.filter_append, List.filter_cons, hne]

/-- Concrete instance of claim C9: a view column among the fetched rows
leaves the declarations for `user_accounts` untouched. -/
theorem claim_C9_view_columns_ignored_witness :
    strayColumn.table_name ∉ ["user_accounts"] ∧
    allDeclarations ["user_accounts"] ([] ++ strayColumn :: []) =
      allDeclarations ["user_accounts"] ([] ++ []) :=
  ⟨by decide,
   claim_C9_view_columns_ignored ["user_accounts"] [] [] strayColumn
     (by decide)⟩

/-- Claim C10: a column is treated as nullable exactly when its
`is_nullable` string equals `"YES"`: then the field type is the null
union of the non-nullable mapping, and for every other value (such as
`"NO"`, `"yes"` or the empty string) the field receives the non-nullable
mapping, which has no null union member. -/
theorem claim_C10_nullable_iff_yes (c : Column) :
    (c.is_nullable = "YES" →
      (columnProperty c).type =
        TypeNode.union
          [getTypeNode c.data_type c.udt_name false, TypeNode.nullLiteral]) ∧
    (c.is_nullable ≠ "YES" →
      (columnProperty c).type = getTypeNode c.data_type c.udt_name false ∧
      isUnionWithNull (columnProperty c).type = false) := by
  constructor
  · intro h
    simp [columnProperty, h, getTypeNode]
  · intro h
    have hb : (c.is_nullable == "YES") = false := by
      rw [beq_eq_false_iff_ne]
      exact h
    constructor
    · simp [columnProperty, hb, getTypeNode]
    · simp [columnProperty, hb, getTypeNode,
        isUnionWithNull_getTypeNodeCore]

/-- Concrete instance of claim C10 at a column whose `is_nullable` is
`"NO"`: its field gets the non-nullable mapping with no null member. -/
theorem claim_C10_nullable_iff_yes_witness :
    plainTextColumn.is_nullable ≠ "YES" ∧
    ((columnProperty plainTextColumn).type =
        getTypeNode plainTextColumn.data_type plainTextColumn.udt_name
          false ∧
      isUnionWithNull (columnProperty plainTextColumn).type = false) :=
  ⟨by decide, (claim_C10_nullable_iff_yes plainTextColumn).2 (by decide)⟩

end Introspect
